import Mathlib

/-!
Verification of the signin-ui backend (woodleighschool/signin-ui).

This file shallowly embeds the parts of the Go backend and its SQL layer
that the claims are about:

  * the store queries in `internal/store/queries/*.sql` and
    `internal/store/migrate/0001_init.sql` (schema), modelled as pure
    functions over an explicit database state `DB`;
  * the Go store helpers in `internal/store` (`ListUsersForGroups`,
    `ReplaceGroupMembers`, `GetKeyLocationForIdentifier`, ...);
  * the portal HTTP handlers (`config`, `checkin` in the portal package);
  * the admin middleware (`authorizeLocation`) and the admin key handler
    (`createKey`);
  * the directory sync jobs (`syncGroup`, `syncDirectoryUser`).

Modelling conventions:
  * UUIDs are modelled as natural numbers; the nil UUID is 0.  The textual
    form of a UUID (as it arrives from the directory provider) is its
    decimal rendering, so `uuid.Parse` is modelled by `String.toNat?`.
  * Timestamps are natural numbers.
  * Go `strings.ToLower` / `strings.TrimSpace` and SQL `LOWER` are modelled
    by ASCII folding / ASCII-whitespace trimming over the character list of
    a `String` (`sLower`, `sTrim`), which the kernel can evaluate.
  * SQL `ORDER BY` is modelled by an insertion sort `sortBy` with the
    query's comparator; text ordering is by code point (`strLE`).
  * Fallible store calls return `Option`; `pgx.ErrNoRows` is `none`.
-/

namespace Signin

/-- ASCII lower-casing of one character (model of Unicode simple folding
for the identifier/UPN alphabets used here). -/
def lowerChar (c : Char) : Char :=
  if 65 ≤ c.toNat ∧ c.toNat ≤ 90 then Char.ofNat (c.toNat + 32) else c

/-- ASCII upper-casing of one character. -/
def upperChar (c : Char) : Char :=
  if 97 ≤ c.toNat ∧ c.toNat ≤ 122 then Char.ofNat (c.toNat - 32) else c

/-- Model of Go `strings.ToLower` and SQL `LOWER`. -/
def sLower (s : String) : String := ⟨s.data.map lowerChar⟩

/-- Model of Go `strings.ToUpper`. -/
def sUpper (s : String) : String := ⟨s.data.map upperChar⟩

/-- ASCII whitespace, as trimmed by Go `strings.TrimSpace`. -/
def isSpaceChar (c : Char) : Bool := c = ' ' || c = '\t' || c = '\n' || c = '\r'

/-- Model of Go `strings.TrimSpace`. -/
def sTrim (s : String) : String :=
  ⟨((s.data.dropWhile isSpaceChar).reverse.dropWhile isSpaceChar).reverse⟩

/-- Contiguous-substring test on character lists (helper of `sContains`). -/
def containsSub (sub : List Char) : List Char → Bool
  | [] => sub.isEmpty
  | a :: as => sub.isPrefixOf (a :: as) || containsSub sub as

/-- Model of Go `strings.Contains`. -/
def sContains (s sub : String) : Bool := containsSub sub.data s.data

/-- Code-point comparison of character lists (model of SQL text ordering). -/
def charsLE : List Char → List Char → Bool
  | [], _ => true
  | _ :: _, [] => false
  | a :: as, b :: bs => if a.toNat = b.toNat then charsLE as bs else a.toNat ≤ b.toNat

/-- Code-point comparison of strings (model of SQL text ordering). -/
def strLE (a b : String) : Bool := charsLE a.data b.data

/-- Insert into a sorted list (helper of `sortBy`). -/
def insertBy (le : α → α → Bool) (a : α) : List α → List α
  | [] => [a]
  | b :: bs => if le a b then a :: b :: bs else b :: insertBy le a bs

/-- Insertion sort; models SQL `ORDER BY` with comparator `le`. -/
def sortBy (le : α → α → Bool) : List α → List α
  | [] => []
  | a :: as => insertBy le a (sortBy le as)

theorem mem_insertBy (le : α → α → Bool) (a x : α) (l : List α) :
    x ∈ insertBy le a l ↔ x = a ∨ x ∈ l := by
  induction l with
  | nil => simp [insertBy]
  | cons b bs ih =>
    simp only [insertBy]
    split
    · simp
    · simp only [List.mem_cons, ih]
      tauto

theorem mem_sortBy (le : α → α → Bool) (x : α) (l : List α) :
    x ∈ sortBy le l ↔ x ∈ l := by
  induction l with
  | nil => simp [sortBy]
  | cons a as ih => simp [sortBy, mem_insertBy, ih]

theorem pairwise_insertBy (le : α → α → Bool)
    (htot : ∀ a b, le a b = true ∨ le b a = true)
    (htrans : ∀ a b c, le a b = true → le b c = true → le a c = true)
    (a : α) (l : List α) (hl : l.Pairwise (fun x y => le x y = true)) :
    (insertBy le a l).Pairwise (fun x y => le x y = true) := by
  induction l with
  | nil => simp [insertBy]
  | cons b bs ih =>
    simp only [insertBy]
    rcases List.pairwise_cons.mp hl with ⟨hb, hbs⟩
    split
    · rename_i hab
      refine List.pairwise_cons.mpr ⟨?_, hl⟩
      intro x hx
      rcases List.mem_cons.mp hx with rfl | hx
      · exact hab
      · exact htrans a b x hab (hb x hx)
    · rename_i hab
      have hba : le b a = true := by
        rcases htot a b with h | h
        · exact absurd h hab
        · exact h
      refine List.pairwise_cons.mpr ⟨?_, ih hbs⟩
      intro x hx
      rcases (mem_insertBy le a x bs).mp hx with rfl | hx
      · exact hba
      · exact hb x hx

theorem pairwise_sortBy (le : α → α → Bool)
    (htot : ∀ a b, le a b = true ∨ le b a = true)
    (htrans : ∀ a b c, le a b = true → le b c = true → le a c = true)
    (l : List α) : (sortBy le l).Pairwise (fun x y => le x y = true) := by
  induction l with
  | nil => simp [sortBy]
  | cons a as ih => exact pairwise_insertBy le htot htrans a (sortBy le as) ih

/-- `sLower` is idempotent (needed because the Go store lowers the portal
identifier before the SQL query applies `LOWER` to it again). -/
theorem lowerChar_idem (c : Char) : lowerChar (lowerChar c) = lowerChar c := by
  unfold lowerChar
  split
  · rename_i h
    have hv : (c.toNat + 32).isValidChar := by
      left
      have : c.toNat ≤ 90 := h.2
      omega
    have ht : (Char.ofNat (c.toNat + 32)).toNat = c.toNat + 32 := by
      simp only [Char.ofNat, hv, dif_pos]
      rfl
    rw [if_neg]
    rw [ht]
    have : c.toNat ≤ 90 := h.2
    omega
  · rfl

theorem sLower_idem (s : String) : sLower (sLower s) = sLower s := by
  simp [sLower, List.map_map, Function.comp_def, lowerChar_idem]

/-! ## Data model (schema `0001_init.sql`) -/

/-- UUIDs, modelled as naturals. -/
abbrev UUID := Nat

/-- The nil (all-zero) UUID, `uuid.Nil` in Go. -/
def nilUUID : UUID := 0

/-- Row of the `users` table: identity plus the two admin-owned
authorization fields (`is_admin`, `location_ids`). -/
structure User where
  id : UUID
  upn : String
  displayName : String
  objectId : Option String
  department : Option String
  isAdmin : Bool
  locationIds : List UUID
deriving DecidableEq, Repr

/-- Row of the `groups` table. -/
structure Group where
  id : UUID
  displayName : String
  description : Option String
  objectId : Option String
deriving DecidableEq, Repr

/-- Row of the `group_members` table (primary key `(group_id, user_id)`). -/
structure GroupMember where
  groupId : UUID
  userId : UUID
deriving DecidableEq, Repr

/-- Row of the `locations` table. -/
structure Location where
  id : UUID
  name : String
  identifier : String
  groupIds : List UUID
  notesEnabled : Bool
deriving DecidableEq, Repr

/-- Row of the `keys` table. -/
structure Key where
  id : UUID
  description : Option String
  keyValue : String
  locationIds : List UUID
deriving DecidableEq, Repr

/-- Row of the `checkins` table.  `notes` is `none` when stored as SQL
NULL; `keyId` is nullable (`ON DELETE SET NULL`). -/
structure Checkin where
  id : Nat
  userId : UUID
  locationId : UUID
  keyId : Option UUID
  direction : String
  notes : Option String
  occurredAt : Nat
deriving DecidableEq, Repr

/-- The database state: one list of rows per table. -/
structure DB where
  users : List User
  groups : List Group
  groupMembers : List GroupMember
  locations : List Location
  keys : List Key
  checkins : List Checkin
deriving DecidableEq, Repr

/-! ## Store queries -/

/-- Comparator of `ListGroupMembers`' `ORDER BY LOWER(COALESCE(u.display_name,
u.upn)), u.upn` (`display_name` is NOT NULL, so the COALESCE is its first
argument). -/
def memberLE (a b : User) : Bool :=
  if sLower a.displayName = sLower b.displayName then strLE a.upn b.upn
  else strLE (sLower a.displayName) (sLower b.displayName)

/-- The join of `ListGroupMembers` (queries/groups.sql): `group_members`
rows of the group joined to their `users` row. -/
def memberRows (db : DB) (gid : UUID) : List User :=
  (db.groupMembers.filter (fun gm => gm.groupId == gid)).filterMap
    (fun gm => db.users.find? (fun u => u.id == gm.userId))

/-- `ListGroupMembers` (queries/groups.sql): members of one group, ordered
by lower-cased display name then UPN. -/
def listGroupMembers (db : DB) (gid : UUID) : List User :=
  sortBy memberLE (memberRows db gid)

/-- One step of the Go `ListUsersForGroups` loop (internal/store): skip a
member whose ID was already seen, else record it and append the row. -/
def addMember (acc : List UUID × List User) (m : User) : List UUID × List User :=
  if acc.1.contains m.id then acc else (m.id :: acc.1, acc.2 ++ [m])

/-- Go `ListUsersForGroups` (internal/store): iterate the group-ID list in
order, appending each group's members that were not seen yet (dedup by
user ID). -/
def listUsersForGroups (db : DB) (groupIds : List UUID) : List User :=
  (groupIds.foldl (fun acc gid => (listGroupMembers db gid).foldl addMember acc) ([], [])).2

/-- Go `ListLocationGroupIDs` (internal/store): the location's `group_ids`
array; the portal handlers discard the error, so a missing location yields
the empty list. -/
def listLocationGroupIDs (db : DB) (locationId : UUID) : List UUID :=
  ((db.locations.find? (fun l => l.id == locationId)).map (fun l => l.groupIds)).getD []

/-- Result row of `GetKeyLocationForIdentifier` (queries/keys.sql). -/
structure KeyLocationRow where
  id : UUID
  keyValue : String
  locationId : UUID
  locationName : String
  locationIdentifier : String
  locationNotesEnabled : Bool
deriving DecidableEq, Repr

/-- `GetKeyLocationForIdentifier` (queries/keys.sql plus its Go wrapper in
internal/store): one combined lookup joining `keys` to `locations` via the
key's `location_ids` array, requiring exact key-value equality AND a
case-insensitive identifier match in the same row; the Go wrapper passes
`LOWER(TRIM(identifier))` as the parameter and the SQL lowers it again.
`none` models `pgx.ErrNoRows`. -/
def getKeyLocationForIdentifier (db : DB) (keyValue identifier : String) :
    Option KeyLocationRow :=
  let param := sLower (sTrim identifier)
  (db.keys.flatMap (fun k =>
    db.locations.filterMap (fun l =>
      if k.locationIds.contains l.id && k.keyValue == keyValue
          && sLower l.identifier == sLower param
      then some ⟨k.id, k.keyValue, l.id, l.name, l.identifier, l.notesEnabled⟩
      else none))).head?

example : sortBy (fun a b => a ≤ b) [3, 1, 2] = [1, 2, 3] := by decide
example : sLower "RecePtion" = "reception" := by decide
example : sTrim "  ok " = "ok" := by decide
example : sContains "a#EXT#b" "#EXT#" = true := by decide
example : sContains "ab" "#EXT#" = false := by decide

/-! ## Portal handlers (portal package: `config`, `checkin`) -/

/-- Wire body of `POST /portal/checkin`. -/
structure PortalCheckinBody where
  key : String
  location : String
  userId : UUID
  direction : String
  notes : String
deriving DecidableEq, Repr

/-- Outcome of the portal `checkin` handler: HTTP status, error message
(empty on success), and the persisted row on success. -/
structure PortalResponse where
  status : Nat
  message : String
  checkin : Option Checkin
deriving DecidableEq, Repr

/-- Go `userAllowed` (portal package): membership of the submitting user
in the effective user list, by ID. -/
def userAllowed (id : UUID) (users : List User) : Bool :=
  users.any (fun u => u.id == id)

/-- The portal `checkin` handler.  `body = none` models a JSON decode
failure; `now` is `time.Now()`.  Mirrors the handler's order: decode,
required-fields check, direction check, combined key+location lookup
(masked 403 on no row), effective-user check, then insert with notes kept
only when trimmed-non-empty AND the location has notes enabled. -/
def checkinHandler (db : DB) (now : Nat) (body : Option PortalCheckinBody) :
    PortalResponse :=
  match body with
  | none => ⟨400, "invalid body", none⟩
  | some b =>
    if b.key = "" || b.location = "" || b.userId = nilUUID then
      ⟨400, "missing required fields", none⟩
    else if b.direction ≠ "in" && b.direction ≠ "out" then
      ⟨400, "invalid direction", none⟩
    else
      match getKeyLocationForIdentifier db b.key b.location with
      | none => ⟨403, "invalid key or location", none⟩
      | some row =>
        let groupIds := listLocationGroupIDs db row.locationId
        let allowedUsers := listUsersForGroups db groupIds
        if !userAllowed b.userId allowedUsers then
          ⟨403, "user not permitted for this location", none⟩
        else
          let notesValue := sTrim b.notes
          let notes := if notesValue ≠ "" && row.locationNotesEnabled
            then some notesValue else none
          ⟨201, "", some ⟨db.checkins.length, b.userId, row.locationId,
            some row.id, b.direction, notes, now⟩⟩

/-- Query string of `GET /portal/config`. -/
structure ConfigQuery where
  key : String
  location : String
deriving DecidableEq, Repr

/-- Outcome of the portal `config` handler: status, error message (empty
on success), the public location fields, and the mapped user list
(`mapUsers`: id, display name, UPN). -/
structure ConfigResponse where
  status : Nat
  message : String
  location : Option (UUID × String × String × Bool)
  users : List (UUID × String × String)
deriving DecidableEq, Repr

/-- The portal `config` handler: trim both query parameters, reject blanks
with 400, run the combined key+location lookup (masked 403 on no row),
then list the location's effective users. -/
def configHandler (db : DB) (q : ConfigQuery) : ConfigResponse :=
  let keyValue := sTrim q.key
  let locationIdentifier := sTrim q.location
  if keyValue = "" || locationIdentifier = "" then
    ⟨400, "key and location are required", none, []⟩
  else
    match getKeyLocationForIdentifier db keyValue locationIdentifier with
    | none => ⟨403, "invalid key or location", none, []⟩
    | some row =>
      let groupIds := listLocationGroupIDs db row.locationId
      let users := listUsersForGroups db groupIds
      ⟨200, "", some (row.locationId, row.locationName, row.locationIdentifier,
          row.locationNotesEnabled),
        users.map (fun u => (u.id, u.displayName, u.upn))⟩

/-! ## Admin middleware (`authorizeLocation`, `HasUserLocationAccess`) -/

/-- `HasUserLocationAccess` (queries/access.sql):
`SELECT $2 = ANY(u.location_ids) FROM users u WHERE u.id = $1`; `none`
models the no-row case (user absent). -/
def hasUserLocationAccess (db : DB) (userId locationId : UUID) : Option Bool :=
  (db.users.find? (fun u => u.id == userId)).map
    (fun u => u.locationIds.contains locationId)

/-- Outcome of the location-access middleware: status 0 means the request
is allowed through. -/
structure AuthzDecision where
  status : Nat
  message : String
deriving DecidableEq, Repr

/-- `authorizeLocation` (internal/http/middleware.go), after the current
user has been loaded: admins pass, otherwise the direct-grant check
`HasUserLocationAccess` decides. -/
def authorizeLocation (db : DB) (user : User) (locationId : UUID) : AuthzDecision :=
  if user.isAdmin then ⟨0, ""⟩
  else
    match hasUserLocationAccess db user.id locationId with
    | none => ⟨500, "failed to check access"⟩
    | some true => ⟨0, ""⟩
    | some false => ⟨403, "location access required"⟩

/-! ## Check-in listing queries (`ListCheckins`, `ListCheckinDetails`) -/

/-- The two optional filters of the listing queries (`sqlc.narg`): a
`none` filter matches every row. -/
def checkinFilterMatch (locationFilter userFilter : Option UUID) (c : Checkin) : Bool :=
  (match locationFilter with
   | none => true
   | some l => c.locationId == l)
  && (match userFilter with
      | none => true
      | some uid => c.userId == uid)

/-- The access clause of `ListCheckins`/`ListCheckinDetails`:
`is_admin OR EXISTS (SELECT 1 FROM users u WHERE u.id = viewer_id AND
c.location_id = ANY(u.location_ids))`. -/
def checkinVisibleTo (db : DB) (isAdmin : Bool) (viewerId : UUID) (c : Checkin) : Bool :=
  isAdmin || db.users.any
    (fun u => u.id == viewerId && u.locationIds.contains c.locationId)

/-- Descending `occurred_at` comparator (`ORDER BY c.occurred_at DESC`). -/
def occurredDesc (a b : Checkin) : Bool := b.occurredAt ≤ a.occurredAt

/-- `ListCheckins` before `LIMIT`/`OFFSET`: the access- and
filter-restricted rows ordered by `occurred_at` descending. -/
def visibleCheckinsAll (db : DB) (isAdmin : Bool) (viewerId : UUID)
    (locationFilter userFilter : Option UUID) : List Checkin :=
  sortBy occurredDesc (db.checkins.filter
    (fun c => checkinVisibleTo db isAdmin viewerId c
      && checkinFilterMatch locationFilter userFilter c))

/-- `ListCheckins` (checkins query file): access clause, optional filters,
descending order, then `OFFSET`/`LIMIT`. -/
def listCheckins (db : DB) (isAdmin : Bool) (viewerId : UUID)
    (locationFilter userFilter : Option UUID) (limit offset : Nat) : List Checkin :=
  ((visibleCheckinsAll db isAdmin viewerId locationFilter userFilter).drop offset).take limit

/-- Joined row of `ListCheckinDetails`. -/
structure CheckinDetailRow where
  id : Nat
  userId : UUID
  userDisplayName : String
  userUpn : String
  locationId : UUID
  locationName : String
  locationIdentifier : String
  keyId : Option UUID
  direction : String
  notes : Option String
  occurredAt : Nat
deriving DecidableEq, Repr

/-- The inner joins of `ListCheckinDetails`: a row survives only if its
user and location rows exist. -/
def detailRow (db : DB) (c : Checkin) : Option CheckinDetailRow :=
  match db.users.find? (fun u => u.id == c.userId),
        db.locations.find? (fun l => l.id == c.locationId) with
  | some u, some l =>
    some ⟨c.id, c.userId, u.displayName, u.upn, c.locationId, l.name,
      l.identifier, c.keyId, c.direction, c.notes, c.occurredAt⟩
  | _, _ => none

/-- Descending `occurred_at` comparator on joined rows. -/
def occurredDescD (a b : CheckinDetailRow) : Bool := b.occurredAt ≤ a.occurredAt

/-- `ListCheckinDetails` (checkins query file): the same access clause and
filters as `ListCheckins`, inner-joined to `users` and `locations`,
ordered by `occurred_at` descending, then `OFFSET`/`LIMIT`. -/
def listCheckinDetails (db : DB) (isAdmin : Bool) (viewerId : UUID)
    (locationFilter userFilter : Option UUID) (limit offset : Nat) :
    List CheckinDetailRow :=
  ((sortBy occurredDescD
      ((db.checkins.filter
          (fun c => checkinVisibleTo db isAdmin viewerId c
            && checkinFilterMatch locationFilter userFilter c)).filterMap
        (detailRow db))).drop offset).take limit

/-- The viewer's directly-granted location set (empty when the viewer row
is absent); the claim-side reading of the access clause. -/
def viewerGrants (db : DB) (viewerId : UUID) : List UUID :=
  ((db.users.find? (fun u => u.id == viewerId)).map (fun u => u.locationIds)).getD []

/-! ## Directory sync: groups (`internal/syncer/entra_groups.go`) -/

/-- A group as fetched from the directory provider (graph package). -/
structure DirectoryGroup where
  objectId : String
  displayName : String
  description : String
  members : List String
deriving DecidableEq, Repr

/-- Model of `uuid.Parse` under the UUIDs-as-naturals convention: the
textual form of a UUID is its decimal rendering; anything else fails to
parse. -/
def parseUUIDStr (s : String) : Option UUID :=
  if s.data ≠ [] ∧ s.data.all (fun c => c.isDigit) then
    some (s.data.foldl (fun n c => 10 * n + (c.toNat - 48)) 0)
  else none

/-- Go `parseGroupMembers`: parse each member ID, dropping unparsable
ones. -/
def parseGroupMembers (memberIds : List String) : List UUID :=
  memberIds.filterMap parseUUIDStr

/-- Go `parseGroupID`: parse the object ID; an empty or unparsable value
yields a fresh random UUID (`uuid.New()`), supplied here as `fresh`. -/
def parseGroupID (objectId : String) (fresh : UUID) : UUID :=
  match parseUUIDStr objectId with
  | none => fresh
  | some id => id

/-- `UpsertGroup` (queries/groups.sql): insert, or on ID conflict update
display name, description and object ID.  Returns the resulting row. -/
def upsertGroup (db : DB) (row : Group) : DB × Group :=
  if db.groups.any (fun g => g.id == row.id) then
    ({ db with groups := db.groups.map (fun g => if g.id == row.id then row else g) }, row)
  else
    ({ db with groups := db.groups ++ [row] }, row)

/-- `AddGroupMember` (queries/groups.sql): insert the membership row only
if the user row exists (`WHERE EXISTS`), skipping duplicates
(`ON CONFLICT DO NOTHING`). -/
def addGroupMember (db : DB) (gid uid : UUID) : DB :=
  if db.users.any (fun u => u.id == uid)
      && !(db.groupMembers.any (fun gm => gm.groupId == gid && gm.userId == uid)) then
    { db with groupMembers := db.groupMembers ++ [⟨gid, uid⟩] }
  else db

/-- Go `ReplaceGroupMembers` (internal/store): inside one transaction,
delete every membership row of the group, then re-add the given user
IDs. -/
def replaceGroupMembers (db : DB) (gid : UUID) (userIds : List UUID) : DB :=
  userIds.foldl (fun d uid => addGroupMember d gid uid)
    { db with groupMembers := db.groupMembers.filter (fun gm => gm.groupId != gid) }

/-- Go `syncGroup` (internal/syncer/entra_groups.go): upsert the group
row, then — only when the parsed member list is non-empty — replace the
membership wholesale.  The syncer's `UpsertGroupParams` literal omits
`ObjectID`, so the stored object ID becomes NULL. -/
def syncGroup (db : DB) (g : DirectoryGroup) (fresh : UUID) : DB :=
  let gid := parseGroupID g.objectId fresh
  let res := upsertGroup db
    ⟨gid, g.displayName, (if g.description = "" then none else some g.description), none⟩
  let members := parseGroupMembers g.members
  if members = [] then res.1
  else replaceGroupMembers res.1 res.2.id members

/-! ## Directory sync: users (`internal/syncer/entra_users.go`) -/

/-- A user as fetched from the directory provider (graph package). -/
structure DirectoryUser where
  objectId : String
  upn : String
  displayName : String
  department : String
  active : Bool
deriving DecidableEq, Repr

/-- Go `shouldSkipUser`: inactive users and external guest accounts
(UPN containing the `#EXT#` marker, upper-cased first) are skipped. -/
def shouldSkipUser (u : DirectoryUser) : Bool :=
  !u.active || sContains (sUpper u.upn) "#EXT#"

/-- `DeleteUser` (queries/groups.sql). -/
def deleteUser (db : DB) (id : UUID) : DB :=
  { db with users := db.users.filter (fun u => u.id != id) }

/-- `DeleteUserByUPN` (queries/groups.sql): case-insensitive UPN match. -/
def deleteUserByUPN (db : DB) (upn : String) : DB :=
  { db with users := db.users.filter (fun u => !(sLower u.upn == sLower upn)) }

/-- Parameters of `UpsertUser` (queries/groups.sql).  `is_admin` and
`location_ids` are `sqlc.narg` parameters: `none` models SQL NULL.  A Go
caller sends NULL for `location_ids` exactly when it passes a nil slice;
the non-nil empty slice `[]uuid.UUID{}` is encoded by pgx as the empty
array `'{}'`, i.e. `some []`, not `none`. -/
structure UpsertUserParams where
  id : UUID
  upn : String
  displayName : String
  objectId : Option String
  department : Option String
  isAdmin : Option Bool
  locationIds : Option (List UUID)
deriving DecidableEq, Repr

/-- `UpsertUser` (queries/groups.sql): insert with
`COALESCE(narg, FALSE)` / `COALESCE(narg, '{}')` defaults, or on ID
conflict update the identity columns unconditionally and the two
authorization columns via `COALESCE(narg, old value)` — i.e. only when
the caller supplied a non-NULL value.  Returns the resulting row. -/
def upsertUser (db : DB) (p : UpsertUserParams) : DB × User :=
  match db.users.find? (fun u => u.id == p.id) with
  | some old =>
    let updated : User :=
      { old with
        upn := p.upn
        displayName := p.displayName
        objectId := p.objectId
        department := p.department
        isAdmin := p.isAdmin.getD old.isAdmin
        locationIds := p.locationIds.getD old.locationIds }
    ({ db with users := db.users.map (fun u => if u.id == p.id then updated else u) },
      updated)
  | none =>
    let inserted : User :=
      ⟨p.id, p.upn, p.displayName, p.objectId, p.department,
        p.isAdmin.getD false, p.locationIds.getD []⟩
    ({ db with users := db.users ++ [inserted] }, inserted)

/-- Go `resolveUserID` (internal/syncer/entra_users.go): look the user up
by case-insensitive UPN; a missing row yields a fresh random ID
(`uuid.New()`), supplied here as `fresh`. -/
def resolveUserID (db : DB) (upn : String) (fresh : UUID) : UUID :=
  match db.users.find? (fun u => sLower u.upn == sLower upn) with
  | some u => u.id
  | none => fresh

/-- Go `syncDirectoryUser` (internal/syncer/entra_users.go).  Skipped
users are deleted (by object ID when parsable, else by UPN).  Active
users are upserted with identity fields; the `UpsertUserParams` literal
omits `IsAdmin` (NULL) but explicitly passes
`LocationIds: []uuid.UUID{}` — a non-nil empty slice, which pgx encodes
as the empty array `'{}'`, not NULL. -/
def syncDirectoryUser (db : DB) (u : DirectoryUser) (fresh : UUID) : DB :=
  if u.upn = "" then db
  else
    let parsed := parseUUIDStr u.objectId
    if shouldSkipUser u then
      match parsed with
      | some userId => deleteUser db userId
      | none => deleteUserByUPN db u.upn
    else
      let userId :=
        match parsed with
        | some i => i
        | none => resolveUserID db u.upn fresh
      (upsertUser db
        ⟨userId, u.upn, u.displayName,
          (if u.objectId = "" then none else some u.objectId),
          (if u.department = "" then none else some u.department),
          none, some []⟩).1

/-! ## Admin key creation (`createKey` in the admin package) -/

/-- Wire body of `POST /admin/keys`. -/
structure CreateKeyBody where
  description : String
  keyValue : String
  locationIds : List UUID
deriving DecidableEq, Repr

/-- Status and message of an admin key-creation response. -/
structure AdminResponse where
  status : Nat
  message : String
deriving DecidableEq, Repr

/-- The admin `createKey` handler.  `viewer = none` models a missing
session user; `body = none` a JSON decode failure; `generatedValue` the
random value used when the body omits one; `newId` the fresh `uuid.New()`
row ID.  A store error — in particular the unique-constraint violation on
`key_value` for a duplicate explicit value — is answered with
500 "failed to create key"; there is no Conflict branch. -/
def createKeyHandler (db : DB) (viewer : Option User) (body : Option CreateKeyBody)
    (generatedValue : String) (newId : UUID) : AdminResponse × DB :=
  match viewer with
  | none => (⟨403, "admin required"⟩, db)
  | some v =>
    if !v.isAdmin then (⟨403, "admin required"⟩, db)
    else
      match body with
      | none => (⟨400, "invalid body"⟩, db)
      | some b =>
        let keyValue := if b.keyValue = "" then generatedValue else b.keyValue
        if db.keys.any (fun k => k.keyValue == keyValue || k.id == newId) then
          (⟨500, "failed to create key"⟩, db)
        else
          (⟨201, ""⟩,
            { db with keys := db.keys ++
              [⟨newId, (if b.description = "" then none else some b.description),
                keyValue, b.locationIds⟩] })

/-! ## Claim C1 — effective check-in users of a location -/

/-- Spec-side description of first-appearance deduplication by user ID:
keep a member only if its ID is not in `seen` and not earlier in the
stream. -/
def dedupFirst (seen : List UUID) : List User → List User
  | [] => []
  | u :: rest =>
    if seen.contains u.id then dedupFirst seen rest
    else u :: dedupFirst (u.id :: seen) rest

/-- The seen-ID set left behind by `dedupFirst`. -/
def dedupSeen (seen : List UUID) : List User → List UUID
  | [] => seen
  | u :: rest =>
    if seen.contains u.id then dedupSeen seen rest
    else dedupSeen (u.id :: seen) rest

theorem foldl_addMember (ms : List User) :
    ∀ (seen : List UUID) (out : List User),
      ms.foldl addMember (seen, out) = (dedupSeen seen ms, out ++ dedupFirst seen ms) := by
  induction ms with
  | nil => intro seen out; simp [dedupSeen, dedupFirst]
  | cons m rest ih =>
    intro seen out
    simp only [List.foldl_cons, addMember, dedupSeen, dedupFirst]
    by_cases h : seen.contains m.id
    · simp only [h, if_true, ih]
    · simp only [h, if_false, Bool.false_eq_true, ih, List.append_assoc,
        List.singleton_append]

theorem dedupSeen_append (l₁ l₂ : List User) :
    ∀ seen, dedupSeen seen (l₁ ++ l₂) = dedupSeen (dedupSeen seen l₁) l₂ := by
  induction l₁ with
  | nil => intro seen; simp [dedupSeen]
  | cons u rest ih =>
    intro seen
    simp only [List.cons_append, dedupSeen]
    by_cases h : u.id ∈ seen <;> simp [h, ih]

theorem dedupFirst_append (l₁ l₂ : List User) :
    ∀ seen, dedupFirst seen (l₁ ++ l₂)
      = dedupFirst seen l₁ ++ dedupFirst (dedupSeen seen l₁) l₂ := by
  induction l₁ with
  | nil => intro seen; simp [dedupFirst, dedupSeen]
  | cons u rest ih =>
    intro seen
    simp only [List.cons_append, dedupFirst, dedupSeen]
    by_cases h : u.id ∈ seen <;> simp [h, ih]

theorem listUsersForGroups_fold (db : DB) (gids : List UUID) :
    ∀ (seen : List UUID) (out : List User),
      gids.foldl (fun acc gid => (listGroupMembers db gid).foldl addMember acc) (seen, out)
        = (dedupSeen seen (gids.flatMap (listGroupMembers db)),
           out ++ dedupFirst seen (gids.flatMap (listGroupMembers db))) := by
  induction gids with
  | nil => intro seen out; simp [dedupSeen, dedupFirst]
  | cons g rest ih =>
    intro seen out
    simp only [List.foldl_cons, foldl_addMember, List.flatMap_cons, ih,
      dedupSeen_append, dedupFirst_append, List.append_assoc]

/-- The Go loop equals first-appearance deduplication of the concatenated
member streams, groups taken in list order. -/
theorem listUsersForGroups_eq (db : DB) (gids : List UUID) :
    listUsersForGroups db gids = dedupFirst [] (gids.flatMap (listGroupMembers db)) := by
  simp [listUsersForGroups, listUsersForGroups_fold]

theorem mem_of_mem_dedupFirst (ms : List User) :
    ∀ seen u, u ∈ dedupFirst seen ms → u ∈ ms := by
  induction ms with
  | nil => intro seen u h; simp [dedupFirst] at h
  | cons m rest ih =>
    intro seen u h
    simp only [dedupFirst] at h
    by_cases hc : seen.contains m.id
    · simp only [hc, if_true] at h
      exact List.mem_cons_of_mem m (ih _ u h)
    · simp only [hc, if_false, Bool.false_eq_true, List.mem_cons] at h
      rcases h with rfl | h
      · exact List.mem_cons_self u rest
      · exact List.mem_cons_of_mem m (ih _ u h)

theorem id_mem_dedupFirst (ms : List User) :
    ∀ seen x, x ∈ (dedupFirst seen ms).map (fun u => u.id)
      ↔ x ∈ ms.map (fun u => u.id) ∧ x ∉ seen := by
  induction ms with
  | nil => intro seen x; simp [dedupFirst]
  | cons m rest ih =>
    intro seen x
    simp only [dedupFirst, List.map_cons, List.mem_cons]
    by_cases hc : seen.contains m.id
    · have hm : m.id ∈ seen := by simpa using hc
      simp only [hc, if_true, ih]
      constructor
      · rintro ⟨h1, h2⟩; exact ⟨Or.inr h1, h2⟩
      · rintro ⟨h1, h2⟩
        rcases h1 with rfl | h1
        · exact absurd hm h2
        · exact ⟨h1, h2⟩
    · have hm : m.id ∉ seen := by simpa using hc
      simp only [hc, if_false, Bool.false_eq_true, List.map_cons, List.mem_cons, ih]
      constructor
      · rintro (rfl | ⟨h1, h2⟩)
        · exact ⟨Or.inl rfl, hm⟩
        · refine ⟨Or.inr h1, ?_⟩
          intro hx
          exact h2 (Or.inr hx)
      · rintro ⟨h1, h2⟩
        rcases h1 with rfl | h1
        · exact Or.inl rfl
        · by_cases hx : x = m.id
          · exact Or.inl hx
          · refine Or.inr ⟨h1, ?_⟩
            rintro (h | h)
            · exact hx h
            · exact h2 h

theorem nodup_dedupFirst (ms : List User) :
    ∀ seen, ((dedupFirst seen ms).map (fun u => u.id)).Nodup := by
  induction ms with
  | nil => intro seen; simp [dedupFirst]
  | cons m rest ih =>
    intro seen
    simp only [dedupFirst]
    by_cases hc : seen.contains m.id
    · simp only [hc, if_true]; exact ih seen
    · simp only [hc, if_false, Bool.false_eq_true, List.map_cons, List.nodup_cons]
      refine ⟨?_, ih (m.id :: seen)⟩
      intro hmem
      rcases (id_mem_dedupFirst rest (m.id :: seen) m.id).mp hmem with ⟨_, habs⟩
      exact habs (List.mem_cons_self _ _)

/--
C1.  For every database state and group-ID list, the Go
`ListUsersForGroups` loop returns the union of the members of the listed
groups with duplicates suppressed by user ID: the result is exactly the
first-appearance deduplication of the member streams taken in group-list
order; no user ID appears twice; every member of every listed group is
represented; everything returned is a member of some listed group; and an
empty group list, or groups without members, yield the empty list rather
than an error.
-/
theorem effectiveUsers_union_dedup_order (db : DB) (gids : List UUID) :
    listUsersForGroups db gids = dedupFirst [] (gids.flatMap (listGroupMembers db))
    ∧ ((listUsersForGroups db gids).map (fun u => u.id)).Nodup
    ∧ (∀ gid ∈ gids, ∀ u ∈ listGroupMembers db gid,
        ∃ v ∈ listUsersForGroups db gids, v.id = u.id)
    ∧ (∀ v ∈ listUsersForGroups db gids, ∃ gid ∈ gids, v ∈ listGroupMembers db gid)
    ∧ (gids = [] → listUsersForGroups db gids = [])
    ∧ ((∀ gid ∈ gids, listGroupMembers db gid = []) → listUsersForGroups db gids = []) := by
  refine ⟨listUsersForGroups_eq db gids, ?_, ?_, ?_, ?_, ?_⟩
  · rw [listUsersForGroups_eq]
    exact nodup_dedupFirst _ []
  · intro gid hgid u hu
    have hid : u.id ∈ (gids.flatMap (listGroupMembers db)).map (fun v => v.id) := by
      simp only [List.map_flatMap, List.mem_flatMap]
      exact ⟨gid, hgid, List.mem_map_of_mem _ hu⟩
    have : u.id ∈ (dedupFirst [] (gids.flatMap (listGroupMembers db))).map (fun v => v.id) :=
      (id_mem_dedupFirst _ [] u.id).mpr ⟨hid, by simp⟩
    rcases List.mem_map.mp this with ⟨v, hv, hveq⟩
    rw [listUsersForGroups_eq]
    exact ⟨v, hv, hveq⟩
  · intro v hv
    rw [listUsersForGroups_eq] at hv
    have := mem_of_mem_dedupFirst _ [] v hv
    rcases List.mem_flatMap.mp this with ⟨gid, hgid, hmem⟩
    exact ⟨gid, hgid, hmem⟩
  · rintro rfl; rfl
  · intro hall
    rw [listUsersForGroups_eq]
    have : gids.flatMap (listGroupMembers db) = [] := by
      apply List.flatMap_eq_nil_iff.mpr
      intro gid hgid
      exact hall gid hgid
    rw [this]
    rfl

/-- Witness for C1 at a concrete state: two groups sharing a member. -/
def c1db : DB :=
  { users := [⟨10, "a@w", "Ann", none, none, false, []⟩,
              ⟨11, "b@w", "Bob", none, none, false, []⟩],
    groups := [⟨1, "G1", none, none⟩, ⟨2, "G2", none, none⟩],
    groupMembers := [⟨1, 10⟩, ⟨2, 10⟩, ⟨2, 11⟩],
    locations := [], keys := [], checkins := [] }

theorem effectiveUsers_union_dedup_order_witness :
    ((listUsersForGroups c1db [1, 2]).map (fun u => u.id)).Nodup
    ∧ (listUsersForGroups c1db []) = [] := by
  refine ⟨(effectiveUsers_union_dedup_order c1db [1, 2]).2.1, ?_⟩
  exact (effectiveUsers_union_dedup_order c1db []).2.2.2.2.1 rfl

/-! ## Claim C2 — masked rejection is indistinguishable -/

/-- The combined lookup fails exactly when no key row with the given
value authorizes a location whose identifier matches case-insensitively
(after trimming).  Uses `sLower_idem` to collapse the double lowering
(once in the Go wrapper, once in SQL). -/
theorem getKeyLocationForIdentifier_eq_none (db : DB) (kv ident : String) :
    getKeyLocationForIdentifier db kv ident = none ↔
      ∀ k ∈ db.keys, k.keyValue = kv →
        ∀ l ∈ db.locations, l.id ∈ k.locationIds →
          sLower l.identifier ≠ sLower (sTrim ident) := by
  unfold getKeyLocationForIdentifier
  rw [List.head?_eq_none_iff, List.flatMap_eq_nil_iff]
  constructor
  · intro h k hk hkv l hl hlid heq
    have h1 := List.filterMap_eq_nil_iff.mp (h k hk) l hl
    rw [sLower_idem] at h1
    simp [hkv, hlid, heq] at h1
  · intro h k hk
    rw [List.filterMap_eq_nil_iff]
    intro l hl
    rw [sLower_idem]
    simp only [ite_eq_right_iff]
    intro hcond
    exfalso
    simp only [Bool.and_eq_true, beq_iff_eq] at hcond
    obtain ⟨⟨h1, h2⟩, h3⟩ := hcond
    have h1' : l.id ∈ k.locationIds := by simpa using h1
    exact h k hk h2 l hl h1' h3

/--
C2.  For every state and every pair of well-formed check-in requests (all
required fields present, direction valid), a request whose key value does
match an existing key but whose key authorizes no location matching the
request's identifier, and a request whose key value matches no key at
all, are both rejected with exactly HTTP 403 and message
"invalid key or location": the two failure responses are equal, because
both conditions are evaluated in the one combined lookup
`GetKeyLocationForIdentifier`.
-/
theorem maskedRejection_indistinguishable (db : DB) (now : Nat)
    (bA bB : PortalCheckinBody)
    (hAkey : bA.key ≠ "") (hAloc : bA.location ≠ "") (hAuser : bA.userId ≠ nilUUID)
    (hAdir : bA.direction = "in" ∨ bA.direction = "out")
    (hBkey : bB.key ≠ "") (hBloc : bB.location ≠ "") (hBuser : bB.userId ≠ nilUUID)
    (hBdir : bB.direction = "in" ∨ bB.direction = "out")
    (hvalid : ∃ k ∈ db.keys, k.keyValue = bA.key)
    (hnoloc : ∀ k ∈ db.keys, k.keyValue = bA.key →
      ∀ l ∈ db.locations, l.id ∈ k.locationIds →
        sLower l.identifier ≠ sLower (sTrim bA.location))
    (hnokey : ∀ k ∈ db.keys, k.keyValue ≠ bB.key) :
    checkinHandler db now (some bA) = ⟨403, "invalid key or location", none⟩
    ∧ checkinHandler db now (some bB) = ⟨403, "invalid key or location", none⟩
    ∧ checkinHandler db now (some bA) = checkinHandler db now (some bB) := by
  have hA : getKeyLocationForIdentifier db bA.key bA.location = none :=
    (getKeyLocationForIdentifier_eq_none db bA.key bA.location).mpr hnoloc
  have hB : getKeyLocationForIdentifier db bB.key bB.location = none := by
    refine (getKeyLocationForIdentifier_eq_none db bB.key bB.location).mpr ?_
    intro k hk hkv
    exact absurd hkv (hnokey k hk)
  have hAdir' : (bA.direction ≠ "in" && bA.direction ≠ "out") = false := by
    rcases hAdir with h | h <;> simp [h]
  have hBdir' : (bB.direction ≠ "in" && bB.direction ≠ "out") = false := by
    rcases hBdir with h | h <;> simp [h]
  have eA : checkinHandler db now (some bA) = ⟨403, "invalid key or location", none⟩ := by
    simp only [checkinHandler, hA, hAkey, hAloc, hAuser]
    simp [hAdir']
    tauto
  have eB : checkinHandler db now (some bB) = ⟨403, "invalid key or location", none⟩ := by
    simp only [checkinHandler, hB, hBkey, hBloc, hBuser]
    simp [hBdir']
    tauto
  exact ⟨eA, eB, by rw [eA, eB]⟩

/-- Concrete state for the C2 witness: key "K" authorizes only location 2
("reception"); the first request presents "K" for the unauthorized
location "office", the second a garbage key value. -/
def c2db : DB :=
  { users := [], groups := [], groupMembers := [],
    locations := [⟨2, "Reception", "reception", [], false⟩,
                  ⟨3, "Office", "office", [], false⟩],
    keys := [⟨5, none, "K", [2]⟩],
    checkins := [] }

theorem maskedRejection_indistinguishable_witness :
    checkinHandler c2db 0 (some ⟨"K", "office", 1, "in", ""⟩)
      = ⟨403, "invalid key or location", none⟩
    ∧ checkinHandler c2db 0 (some ⟨"garbage", "office", 1, "in", ""⟩)
      = ⟨403, "invalid key or location", none⟩ := by
  have h := maskedRejection_indistinguishable c2db 0
    ⟨"K", "office", 1, "in", ""⟩ ⟨"garbage", "office", 1, "in", ""⟩
    (by decide) (by decide) (by decide) (Or.inl rfl)
    (by decide) (by decide) (by decide) (Or.inl rfl)
    ⟨⟨5, none, "K", [2]⟩, by decide, rfl⟩
    (by decide) (by decide)
  exact ⟨h.1, h.2.1⟩

/-! ## Claim C3 — notes persistence -/

/--
C3.  For every successful portal check-in (handler returned 201 with a
persisted row), the stored notes field is present exactly when the
resolved location has notes enabled AND the caller's notes are non-empty
after trimming; in that case the stored value is the trimmed text, and in
every other case the stored notes is absent.
-/
theorem notes_persistence (db : DB) (now : Nat) (b : PortalCheckinBody)
    (row : KeyLocationRow) (c : Checkin)
    (hrow : getKeyLocationForIdentifier db b.key b.location = some row)
    (hres : checkinHandler db now (some b) = ⟨201, "", some c⟩) :
    (row.locationNotesEnabled = true ∧ sTrim b.notes ≠ "" →
      c.notes = some (sTrim b.notes))
    ∧ ((row.locationNotesEnabled = false ∨ sTrim b.notes = "") → c.notes = none) := by
  simp only [checkinHandler, hrow] at hres
  split_ifs at hres with h1 h2 h3 h4
  · exact absurd hres (by simp)
  · exact absurd hres (by simp)
  · exact absurd hres (by simp)
  · have hc := Option.some.inj (congrArg PortalResponse.checkin hres)
    subst hc
    simp only [Bool.and_eq_true, decide_eq_true_eq] at h4
    exact ⟨fun _ => rfl, fun hno => by
      rcases hno with hno | hno
      · rw [h4.2] at hno; cases hno
      · exact absurd hno h4.1⟩
  · have hc := Option.some.inj (congrArg PortalResponse.checkin hres)
    subst hc
    simp only [Bool.and_eq_true, decide_eq_true_eq, not_and] at h4
    refine ⟨fun hyes => ?_, fun _ => rfl⟩
    exact absurd hyes.1 (h4 hyes.2)

/-- Concrete state for the C3 witness: key "K" authorizes the
notes-enabled location "reception", whose group 1 contains user 10. -/
def c3db : DB :=
  { users := [⟨10, "a@w", "Ann", none, none, false, []⟩],
    groups := [⟨1, "G1", none, none⟩],
    groupMembers := [⟨1, 10⟩],
    locations := [⟨2, "Reception", "reception", [1], true⟩],
    keys := [⟨5, none, "K", [2]⟩],
    checkins := [] }

theorem notes_persistence_witness :
    (⟨0, 10, 2, some 5, "in", some "ok", 7⟩ : Checkin).notes = some (sTrim " ok ")
    ∧ sTrim " ok " = "ok" := by
  have hrow : getKeyLocationForIdentifier c3db "K" "reception"
      = some ⟨5, "K", 2, "Reception", "reception", true⟩ := by decide
  have hres : checkinHandler c3db 7 (some ⟨"K", "reception", 10, "in", " ok "⟩)
      = ⟨201, "", some ⟨0, 10, 2, some 5, "in", some "ok", 7⟩⟩ := by decide
  exact ⟨(notes_persistence c3db 7 ⟨"K", "reception", 10, "in", " ok "⟩
      ⟨5, "K", 2, "Reception", "reception", true⟩ ⟨0, 10, 2, some 5, "in", some "ok", 7⟩
      hrow hres).1 ⟨rfl, by decide⟩, by decide⟩

/-! ## Claim C4 — console location access -/

/--
C4.  For every state whose `users` table holds the viewer's row, the
location-access middleware allows the request exactly when the viewer is
an admin or the location ID is in the viewer's directly-granted
location-ID set; for a non-admin it is allowed exactly when the location
ID is directly granted; and the decision is unchanged under arbitrary
replacement of the group-membership, group and location tables —
group-derived kiosk eligibility never grants console access.
-/
theorem console_access_admin_or_grant (db db' : DB) (u : User) (locationId : UUID)
    (hfind : db.users.find? (fun v => v.id == u.id) = some u)
    (husers : db'.users = db.users) :
    (authorizeLocation db u locationId = ⟨0, ""⟩
      ↔ (u.isAdmin = true ∨ locationId ∈ u.locationIds))
    ∧ (u.isAdmin = false →
        (authorizeLocation db u locationId = ⟨0, ""⟩ ↔ locationId ∈ u.locationIds))
    ∧ authorizeLocation db' u locationId = authorizeLocation db u locationId := by
  have haccess : hasUserLocationAccess db u.id locationId
      = some (u.locationIds.contains locationId) := by
    simp [hasUserLocationAccess, hfind]
  have hmain : authorizeLocation db u locationId = ⟨0, ""⟩
      ↔ (u.isAdmin = true ∨ locationId ∈ u.locationIds) := by
    unfold authorizeLocation
    by_cases hadm : u.isAdmin
    · simp [hadm]
    · simp only [hadm, if_false, Bool.false_eq_true, haccess]
      by_cases hmem : locationId ∈ u.locationIds
      · simp [hmem, hadm]
      · have : u.locationIds.contains locationId = false := by
          simpa using hmem
        simp [this, hmem, hadm]
  refine ⟨hmain, ?_, ?_⟩
  · intro hadm
    rw [hmain]
    simp [hadm]
  · unfold authorizeLocation hasUserLocationAccess
    rw [husers]

/-- Concrete state for the C4 witness: non-admin user 1 has a direct
grant to location 2 but is also (irrelevantly) a member of a group
assigned to location 3. -/
def c4db : DB :=
  { users := [⟨1, "v@w", "Viewer", none, none, false, [2]⟩],
    groups := [⟨9, "G", none, none⟩],
    groupMembers := [⟨9, 1⟩],
    locations := [⟨2, "A", "a", [], false⟩, ⟨3, "B", "b", [9], false⟩],
    keys := [], checkins := [] }

/-- A copy of `c4db` with a different membership table (same users). -/
def c4db' : DB := { c4db with groupMembers := [] }

theorem console_access_admin_or_grant_witness :
    authorizeLocation c4db ⟨1, "v@w", "Viewer", none, none, false, [2]⟩ 2 = ⟨0, ""⟩
    ∧ (authorizeLocation c4db ⟨1, "v@w", "Viewer", none, none, false, [2]⟩ 3 = ⟨0, ""⟩
        → False)
    ∧ authorizeLocation c4db' ⟨1, "v@w", "Viewer", none, none, false, [2]⟩ 3
        = authorizeLocation c4db ⟨1, "v@w", "Viewer", none, none, false, [2]⟩ 3 := by
  have h2 := console_access_admin_or_grant c4db c4db'
    ⟨1, "v@w", "Viewer", none, none, false, [2]⟩ 2 (by decide) rfl
  have h3 := console_access_admin_or_grant c4db c4db'
    ⟨1, "v@w", "Viewer", none, none, false, [2]⟩ 3 (by decide) rfl
  refine ⟨(h2.2.1 rfl).mpr (by decide), fun habs => ?_, h3.2.2⟩
  have := (h3.2.1 rfl).mp habs
  simp at this

/-! ## Claim C5 — scoped, ordered, paginated check-in listing -/

theorem checkinVisibleTo_iff (db : DB) (isAdmin : Bool) (viewerId : UUID)
    (c : Checkin) (hnodup : (db.users.map (fun u => u.id)).Nodup) :
    checkinVisibleTo db isAdmin viewerId c = true
      ↔ (isAdmin = true ∨ c.locationId ∈ viewerGrants db viewerId) := by
  unfold checkinVisibleTo viewerGrants
  by_cases hadm : isAdmin
  · simp [hadm]
  · simp only [hadm, Bool.false_or, Bool.false_eq_true, false_or]
    cases hfind : db.users.find? (fun u => u.id == viewerId) with
    | none =>
      have hnone : ∀ u ∈ db.users, ¬(u.id = viewerId) := by
        intro u hu heq
        have := List.find?_eq_none.mp hfind u hu
        simp [heq] at this
      simp only [Option.map_none, Option.getD_none, List.any_eq_true]
      constructor
      · rintro ⟨u, hu, hcond⟩
        simp only [Bool.and_eq_true, beq_iff_eq] at hcond
        exact absurd hcond.1 (hnone u hu)
      · intro h
        simp at h
    | some w =>
      have hw : w ∈ db.users ∧ w.id = viewerId := by
        have h1 := List.mem_of_find?_eq_some hfind
        have h2 := List.find?_some hfind
        simp only [beq_iff_eq] at h2
        exact ⟨h1, h2⟩
      simp only [Option.map_some, Option.getD_some, List.any_eq_true]
      constructor
      · rintro ⟨u, hu, hcond⟩
        simp only [Bool.and_eq_true, beq_iff_eq] at hcond
        have huw : u = w := by
          apply List.inj_on_of_nodup_map hnodup hu hw.1
          rw [hcond.1, hw.2]
        subst huw
        simpa using hcond.2
      · intro hmem
        have hmem' : c.locationId ∈ w.locationIds := by simpa using hmem
        refine ⟨w, hw.1, ?_⟩
        simp [hw.2, hmem']

/--
C5.  For every state with unique user IDs and every listing request: the
paginated result is the drop/take slice of the full ordered result; a
check-in is in the full result exactly when it is a stored row matching
the optional location/user filters and the viewer may see it — always,
for an admin viewer, and exactly when its location ID is in the viewer's
directly-granted set otherwise; the full result is ordered by occurred-at
descending; and every row of the joined `ListCheckinDetails` result is
access-scoped the same way.
-/
theorem checkinListing_scoped_ordered_paginated (db : DB) (isAdmin : Bool)
    (viewerId : UUID) (locationFilter userFilter : Option UUID) (limit offset : Nat)
    (hnodup : (db.users.map (fun u => u.id)).Nodup) :
    listCheckins db isAdmin viewerId locationFilter userFilter limit offset
      = ((visibleCheckinsAll db isAdmin viewerId locationFilter userFilter).drop
          offset).take limit
    ∧ (∀ c, c ∈ visibleCheckinsAll db isAdmin viewerId locationFilter userFilter
        ↔ c ∈ db.checkins ∧ checkinFilterMatch locationFilter userFilter c = true
          ∧ (isAdmin = true ∨ c.locationId ∈ viewerGrants db viewerId))
    ∧ (visibleCheckinsAll db isAdmin viewerId locationFilter userFilter).Pairwise
        (fun a b => b.occurredAt ≤ a.occurredAt)
    ∧ (∀ r ∈ listCheckinDetails db isAdmin viewerId locationFilter userFilter limit offset,
        isAdmin = true ∨ r.locationId ∈ viewerGrants db viewerId) := by
  refine ⟨rfl, ?_, ?_, ?_⟩
  · intro c
    unfold visibleCheckinsAll
    rw [mem_sortBy, List.mem_filter]
    rw [Bool.and_eq_true, checkinVisibleTo_iff db isAdmin viewerId c hnodup]
    tauto
  · have := pairwise_sortBy occurredDesc
      (fun a b => by simp only [occurredDesc, decide_eq_true_eq]; omega)
      (fun a b c hab hbc => by
        simp only [occurredDesc, decide_eq_true_eq] at hab hbc ⊢; omega)
      (db.checkins.filter (fun c => checkinVisibleTo db isAdmin viewerId c
        && checkinFilterMatch locationFilter userFilter c))
    unfold visibleCheckinsAll
    exact this.imp (fun h => by simpa [occurredDesc] using h)
  · intro r hr
    unfold listCheckinDetails at hr
    have hr1 := List.mem_of_mem_take hr
    have hr2 := List.mem_of_mem_drop hr1
    rw [mem_sortBy] at hr2
    rcases List.mem_filterMap.mp hr2 with ⟨c, hc, hrow⟩
    have hc' := (List.mem_filter.mp hc).2
    rw [Bool.and_eq_true] at hc'
    have hvis := (checkinVisibleTo_iff db isAdmin viewerId c hnodup).mp hc'.1
    have hloc : r.locationId = c.locationId := by
      unfold detailRow at hrow
      split at hrow
      · cases Option.some.inj hrow; rfl
      · cases hrow
    rw [hloc]
    exact hvis

/-- Concrete state for the C5 witness: viewer 1 is granted location 2
only; location 3 also has a matching check-in. -/
def c5db : DB :=
  { users := [⟨1, "v@w", "Viewer", none, none, false, [2]⟩],
    groups := [], groupMembers := [],
    locations := [⟨2, "A", "a", [], false⟩, ⟨3, "B", "b", [], false⟩],
    keys := [],
    checkins := [⟨0, 9, 2, none, "in", none, 5⟩, ⟨1, 9, 3, none, "in", none, 6⟩] }

theorem checkinListing_scoped_ordered_paginated_witness :
    (⟨0, 9, 2, none, "in", none, 5⟩ : Checkin)
      ∈ visibleCheckinsAll c5db false 1 none (some 9) := by
  have h := (checkinListing_scoped_ordered_paginated c5db false 1 none (some 9) 50 0
    (by decide)).2.1 ⟨0, 9, 2, none, "in", none, 5⟩
  exact h.mpr ⟨by decide, by decide, Or.inr (by decide)⟩

/-! ## Claim C6 — wholesale membership replacement on group sync -/

theorem users_addGroupMember (d : DB) (gid uid : UUID) :
    (addGroupMember d gid uid).users = d.users := by
  unfold addGroupMember
  split <;> rfl

theorem mem_addGroupMember (d : DB) (gid uid : UUID) (row : GroupMember) :
    row ∈ (addGroupMember d gid uid).groupMembers
      ↔ row ∈ d.groupMembers
        ∨ (row = ⟨gid, uid⟩ ∧ d.users.any (fun u => u.id == uid) = true) := by
  unfold addGroupMember
  split
  · rename_i hcond
    rw [Bool.and_eq_true] at hcond
    simp only [List.mem_append, List.mem_singleton]
    constructor
    · rintro (h | h)
      · exact Or.inl h
      · exact Or.inr ⟨h, hcond.1⟩
    · rintro (h | h)
      · exact Or.inl h
      · exact Or.inr h.1
  · rename_i hcond
    rw [Bool.and_eq_true, not_and_or] at hcond
    constructor
    · exact Or.inl
    · rintro (h | ⟨rfl, hany⟩)
      · exact h
      · rcases hcond with hc | hc
        · exact absurd hany hc
        · rw [Bool.not_eq_true, Bool.not_eq_false', List.any_eq_true] at hc
          rcases hc with ⟨gm, hgm, hprop⟩
          rw [Bool.and_eq_true, beq_iff_eq, beq_iff_eq] at hprop
          have : gm = ⟨gid, uid⟩ := by
            cases gm
            simp_all
          rw [← this]
          exact hgm

theorem users_foldAdd (gid : UUID) (uids : List UUID) :
    ∀ d : DB, (uids.foldl (fun acc uid => addGroupMember acc gid uid) d).users
      = d.users := by
  induction uids with
  | nil => intro d; rfl
  | cons uid rest ih =>
    intro d
    rw [List.foldl_cons, ih, users_addGroupMember]

theorem mem_foldAdd (gid : UUID) (uids : List UUID) :
    ∀ (d : DB) (row : GroupMember),
      row ∈ (uids.foldl (fun acc uid => addGroupMember acc gid uid) d).groupMembers
        ↔ row ∈ d.groupMembers
          ∨ (row.groupId = gid ∧ row.userId ∈ uids
              ∧ d.users.any (fun u => u.id == row.userId) = true) := by
  induction uids with
  | nil => intro d row; simp
  | cons uid rest ih =>
    intro d row
    rw [List.foldl_cons, ih, users_addGroupMember, mem_addGroupMember]
    constructor
    · rintro ((h | ⟨rfl, hany⟩) | ⟨hgid, hrest, hany⟩)
      · exact Or.inl h
      · exact Or.inr ⟨rfl, List.mem_cons_self _ _, hany⟩
      · exact Or.inr ⟨hgid, List.mem_cons_of_mem _ hrest, hany⟩
    · rintro (h | ⟨hgid, hmem, hany⟩)
      · exact Or.inl (Or.inl h)
      · rcases List.mem_cons.mp hmem with heq | hmem'
        · refine Or.inl (Or.inr ⟨?_, ?_⟩)
          · cases row
            simp_all
          · rw [← heq]
            exact hany
        · exact Or.inr ⟨hgid, hmem', hany⟩

theorem filter_addGroupMember (d : DB) (gid uid : UUID) :
    ((addGroupMember d gid uid).groupMembers.filter (fun gm => gm.groupId != gid))
      = d.groupMembers.filter (fun gm => gm.groupId != gid) := by
  unfold addGroupMember
  split
  · simp
  · rfl

theorem filter_foldAdd (gid : UUID) (uids : List UUID) :
    ∀ d : DB,
      ((uids.foldl (fun acc uid => addGroupMember acc gid uid) d).groupMembers.filter
        (fun gm => gm.groupId != gid))
      = d.groupMembers.filter (fun gm => gm.groupId != gid) := by
  induction uids with
  | nil => intro d; rfl
  | cons uid rest ih =>
    intro d
    rw [List.foldl_cons, ih, filter_addGroupMember]

theorem replaceGroupMembers_spec (db : DB) (gid : UUID) (uids : List UUID) :
    ((replaceGroupMembers db gid uids).groupMembers.filter (fun gm => gm.groupId != gid)
        = db.groupMembers.filter (fun gm => gm.groupId != gid))
    ∧ (∀ uid, (⟨gid, uid⟩ : GroupMember) ∈ (replaceGroupMembers db gid uids).groupMembers
        ↔ uid ∈ uids ∧ db.users.any (fun u => u.id == uid) = true)
    ∧ (replaceGroupMembers db gid uids).users = db.users := by
  unfold replaceGroupMembers
  refine ⟨?_, ?_, ?_⟩
  · rw [filter_foldAdd]
    simp [List.filter_filter]
  · intro uid
    rw [mem_foldAdd]
    constructor
    · rintro (h | ⟨-, hmem, hany⟩)
      · have := (List.mem_filter.mp h).2
        simp at this
      · exact ⟨hmem, hany⟩
    · rintro ⟨hmem, hany⟩
      exact Or.inr ⟨rfl, hmem, hany⟩
  · rw [users_foldAdd]

theorem upsertGroup_frame (db : DB) (row : Group) :
    (upsertGroup db row).1.groupMembers = db.groupMembers
    ∧ (upsertGroup db row).1.users = db.users
    ∧ (upsertGroup db row).2 = row := by
  unfold upsertGroup
  split <;> exact ⟨rfl, rfl, rfl⟩

/--
C6 (amended).  On a group sync, the group's local membership is replaced
wholesale — existing rows of the group deleted, the upstream members
re-inserted (those that exist as local users), other groups' rows
untouched — only when the upstream member list parses to at least one
member ID; when it parses to the empty list, `syncGroup` returns before
the replacement and the stale local membership is left unchanged.
-/
theorem groupSync_replaceWholesale (db : DB) (g : DirectoryGroup) (fresh : UUID) :
    (parseGroupMembers g.members = [] →
      (syncGroup db g fresh).groupMembers = db.groupMembers)
    ∧ (parseGroupMembers g.members ≠ [] →
        ((syncGroup db g fresh).groupMembers.filter
            (fun gm => gm.groupId != parseGroupID g.objectId fresh)
          = db.groupMembers.filter (fun gm => gm.groupId != parseGroupID g.objectId fresh))
        ∧ (∀ uid, (⟨parseGroupID g.objectId fresh, uid⟩ : GroupMember)
              ∈ (syncGroup db g fresh).groupMembers
            ↔ uid ∈ parseGroupMembers g.members
              ∧ db.users.any (fun u => u.id == uid) = true)) := by
  unfold syncGroup
  set grp : Group := ⟨parseGroupID g.objectId fresh, g.displayName,
    (if g.description = "" then none else some g.description), none⟩ with hgrp
  have hframe := upsertGroup_frame db grp
  constructor
  · intro hempty
    rw [if_pos hempty]
    exact hframe.1
  · intro hne
    rw [if_neg hne]
    have hid : (upsertGroup db grp).2.id = parseGroupID g.objectId fresh := by
      rw [hframe.2.2]
    have hspec := replaceGroupMembers_spec (upsertGroup db grp).1
      (parseGroupID g.objectId fresh) (parseGroupMembers g.members)
    rw [hid]
    constructor
    · rw [hspec.1, hframe.1]
    · intro uid
      rw [hspec.2.1 uid, hframe.2.1]

/-- Concrete state refuting C6 as stated: group 5 has stale member 7
locally and the directory reports an empty member list; the sync leaves
the stale membership in place instead of emptying it. -/
def c6db : DB :=
  { users := [⟨7, "u@w", "U", none, none, false, []⟩],
    groups := [⟨5, "G", none, none⟩],
    groupMembers := [⟨5, 7⟩],
    locations := [], keys := [], checkins := [] }

/-- Directory group 5 with an empty upstream member list. -/
def c6g : DirectoryGroup := ⟨"5", "G", "", []⟩

theorem groupSync_emptyList_counterexample :
    c6g.members = []
    ∧ (syncGroup c6db c6g 99).groupMembers = [⟨5, 7⟩]
    ∧ (syncGroup c6db c6g 99).groupMembers ≠ [] := by decide

/-- Concrete state for the C6 witness: group 5 had stale member 8; the
directory now reports exactly member 7. -/
def c6db2 : DB :=
  { users := [⟨7, "u@w", "U", none, none, false, []⟩,
              ⟨8, "v@w", "V", none, none, false, []⟩],
    groups := [⟨5, "G", none, none⟩],
    groupMembers := [⟨5, 8⟩],
    locations := [], keys := [], checkins := [] }

/-- Directory group 5 with upstream member 7. -/
def c6g2 : DirectoryGroup := ⟨"5", "G", "", ["7"]⟩

theorem groupSync_replaceWholesale_witness :
    (⟨5, 7⟩ : GroupMember) ∈ (syncGroup c6db2 c6g2 99).groupMembers
    ∧ ((⟨5, 8⟩ : GroupMember) ∈ (syncGroup c6db2 c6g2 99).groupMembers → False) := by
  have h := (groupSync_replaceWholesale c6db2 c6g2 99).2 (by decide)
  have hgid : parseGroupID c6g2.objectId 99 = 5 := by decide
  constructor
  · have := (h.2 7).mpr ⟨by decide, by decide⟩
    rwa [hgid] at this
  · intro habs
    have := (h.2 8).mp (by rwa [hgid])
    have h8 : (8 : UUID) ∈ parseGroupMembers c6g2.members := this.1
    revert h8
    decide

/-! ## Claim C7 — admin flag and direct grants across a resync -/

/-- Concrete state for C7: user 1 is a directory user who was locally
promoted to admin and granted location 2 directly. -/
def c7db : DB :=
  { users := [⟨1, "a@w", "Ann", some "1", none, true, [2]⟩],
    groups := [], groupMembers := [],
    locations := [⟨2, "A", "a", [], false⟩],
    keys := [], checkins := [] }

/-- The same user as reported by the directory on the next sync cycle:
active, same object ID and UPN, identity fields only. -/
def c7du : DirectoryUser := ⟨"1", "a@w", "Ann", "", true⟩

/--
C7 (code bug).  Re-syncing an existing directory user wipes the user's
directly-granted location-ID set: `syncDirectoryUser` passes
`LocationIds: []uuid.UUID{}` — a non-nil empty slice, which pgx encodes
as the empty array `'{}'` rather than NULL — so the upsert's
`COALESCE(narg(location_ids), users.location_ids)` takes the supplied
empty set instead of preserving the old one.  (The admin flag, whose
parameter is omitted and therefore NULL under the nullable `sqlc.narg`
reading, is preserved.)  Before the sync user 1 has grants `[2]`; after
the sync the grants are empty, contradicting the claim that a resync
leaves the grant set unchanged.
-/
theorem userSync_wipes_direct_grants :
    ((c7db.users.find? (fun u => u.id == 1)).map (fun u => (u.isAdmin, u.locationIds))
        = some (true, [2]))
    ∧ (((syncDirectoryUser c7db c7du 50).users.find? (fun u => u.id == 1)).map
        (fun u => (u.isAdmin, u.locationIds)) = some (true, [])) := by decide

/-! ## Claim C8 — validation order of the check-in handler -/

/-- Empty state for the C8 counterexample. -/
def c8db : DB := ⟨[], [], [], [], [], []⟩

/-- A request whose key/location pair is invalid (no keys exist at all)
AND whose direction is invalid. -/
def c8body : PortalCheckinBody := ⟨"garbage", "reception", 1, "sideways", ""⟩

/-- Counterexample to C8 as stated: for a request with an invalid
key/location pair and an invalid direction, the handler answers
400 "invalid direction", not the masked 403 — direction is validated
before the Portal Key Gate lookup runs. -/
theorem checkin_order_counterexample :
    getKeyLocationForIdentifier c8db c8body.key c8body.location = none
    ∧ checkinHandler c8db 0 (some c8body) = ⟨400, "invalid direction", none⟩
    ∧ checkinHandler c8db 0 (some c8body) ≠ ⟨403, "invalid key or location", none⟩ := by
  decide

/--
C8 (amended).  The handler validates `direction` BEFORE authorizing the
key value + location identifier: a request (with all required fields)
whose direction is neither "in" nor "out" is rejected 400
"invalid direction" regardless of the key/location pair, and the masked
403 "invalid key or location" is produced only for requests whose
direction is valid and whose combined lookup finds no row.
-/
theorem checkin_direction_before_gate (db : DB) (now : Nat) (b : PortalCheckinBody)
    (hkey : b.key ≠ "") (hloc : b.location ≠ "") (huser : b.userId ≠ nilUUID) :
    (¬(b.direction = "in" ∨ b.direction = "out") →
      checkinHandler db now (some b) = ⟨400, "invalid direction", none⟩)
    ∧ ((b.direction = "in" ∨ b.direction = "out") →
        getKeyLocationForIdentifier db b.key b.location = none →
        checkinHandler db now (some b) = ⟨403, "invalid key or location", none⟩) := by
  constructor
  · intro hdir
    rw [not_or] at hdir
    simp only [checkinHandler, hkey, hloc, huser]
    simp [hdir.1, hdir.2]
  · intro hdir hnone
    have hdir' : (decide (b.direction ≠ "in") && decide (b.direction ≠ "out")) = false := by
      rcases hdir with h | h <;> simp [h]
    simp only [checkinHandler, hnone, hkey, hloc, huser]
    simp [hdir']
    tauto

theorem checkin_direction_before_gate_witness :
    checkinHandler c8db 0 (some c8body) = ⟨400, "invalid direction", none⟩ :=
  (checkin_direction_before_gate c8db 0 c8body (by decide) (by decide) (by decide)).1
    (by decide)

/-! ## Claim C9 — duplicate explicit key value -/

/-- Concrete state for C9: a key with value "abc" already exists, and an
admin attempts to create another key with the same explicit value. -/
def c9db : DB :=
  { users := [], groups := [], groupMembers := [], locations := [],
    keys := [⟨5, none, "abc", []⟩], checkins := [] }

/-- The admin issuing the request. -/
def c9admin : User := ⟨1, "ad@w", "Admin", none, none, true, []⟩

/-- The creation request with the duplicate explicit value. -/
def c9body : CreateKeyBody := ⟨"", "abc", []⟩

/-- Counterexample to C9 as stated: the unique-constraint violation for a
duplicate explicit key value is surfaced as 500 "failed to create key",
not as a Conflict (409) — `createKey` maps every store error to an
internal error and has no Conflict branch. -/
theorem createKey_duplicate_counterexample :
    (createKeyHandler c9db (some c9admin) (some c9body) "gen" 6).1
      = ⟨500, "failed to create key"⟩
    ∧ (createKeyHandler c9db (some c9admin) (some c9body) "gen" 6).1.status ≠ 409 := by
  decide

/--
C9 (amended).  Creating a key with an explicit value equal to an existing
key's value is rejected — the unique constraint makes the insert fail and
no key row is added — but the failure is surfaced to the caller as an
Internal error (HTTP 500, "failed to create key"), not as a Conflict.
-/
theorem createKey_duplicate_internalError (db : DB) (viewer : User)
    (body : CreateKeyBody) (generatedValue : String) (newId : UUID)
    (hadmin : viewer.isAdmin = true) (hne : body.keyValue ≠ "")
    (hdup : ∃ k ∈ db.keys, k.keyValue = body.keyValue) :
    (createKeyHandler db (some viewer) (some body) generatedValue newId).1
      = ⟨500, "failed to create key"⟩
    ∧ (createKeyHandler db (some viewer) (some body) generatedValue newId).2 = db := by
  rcases hdup with ⟨k, hk, hkv⟩
  have hany : db.keys.any
      (fun k' => k'.keyValue == (if body.keyValue = "" then generatedValue
        else body.keyValue) || k'.id == newId) = true := by
    rw [List.any_eq_true]
    refine ⟨k, hk, ?_⟩
    simp [hne, hkv]
  simp only [createKeyHandler, hadmin]
  rw [if_neg (by simp), hany]
  exact ⟨rfl, rfl⟩

theorem createKey_duplicate_internalError_witness :
    (createKeyHandler c9db (some c9admin) (some c9body) "gen" 6).2 = c9db :=
  (createKey_duplicate_internalError c9db c9admin c9body "gen" 6
    rfl (by decide) ⟨⟨5, none, "abc", []⟩, by decide, rfl⟩).2

/-! ## Claim C10 — blank/malformed input is 400, masked 403 only from the lookup -/

/--
C10.  At the portal surface: a config request whose key or location is
blank after trimming is rejected 400 "key and location are required"; a
check-in request with a malformed body is rejected 400 "invalid body";
one with an empty key, empty location or nil-UUID user is rejected 400
"missing required fields"; and conversely the masked
403 "invalid key or location" response is produced only when both
parameters are non-empty and the combined key+location lookup finds no
row (for config, on the trimmed parameters).
-/
theorem portal_badInput_vs_masked (db : DB) (now : Nat) :
    (∀ q : ConfigQuery, sTrim q.key = "" ∨ sTrim q.location = "" →
      configHandler db q = ⟨400, "key and location are required", none, []⟩)
    ∧ checkinHandler db now none = ⟨400, "invalid body", none⟩
    ∧ (∀ b : PortalCheckinBody, b.key = "" ∨ b.location = "" ∨ b.userId = nilUUID →
        checkinHandler db now (some b) = ⟨400, "missing required fields", none⟩)
    ∧ (∀ b : PortalCheckinBody,
        checkinHandler db now (some b) = ⟨403, "invalid key or location", none⟩ →
        b.key ≠ "" ∧ b.location ≠ ""
          ∧ getKeyLocationForIdentifier db b.key b.location = none)
    ∧ (∀ q : ConfigQuery,
        configHandler db q = ⟨403, "invalid key or location", none, []⟩ →
        sTrim q.key ≠ "" ∧ sTrim q.location ≠ ""
          ∧ getKeyLocationForIdentifier db (sTrim q.key) (sTrim q.location) = none) := by
  refine ⟨?_, rfl, ?_, ?_, ?_⟩
  · intro q h
    rcases h with h | h <;> simp [configHandler, h]
  · intro b h
    rcases h with h | h | h <;> simp [checkinHandler, h]
  · intro b h
    simp only [checkinHandler] at h
    split_ifs at h with h1 h2
    · exact absurd h (by simp)
    · exact absurd h (by simp)
    · cases hlook : getKeyLocationForIdentifier db b.key b.location with
      | none =>
        simp only [Bool.or_eq_true, decide_eq_true_eq, not_or] at h1
        exact ⟨h1.1.1, h1.1.2, rfl⟩
      | some row =>
        simp only [hlook] at h
        split_ifs at h
        all_goals exact absurd h (by simp)
  · intro q h
    simp only [configHandler] at h
    split_ifs at h with h1
    · exact absurd h (by simp)
    · cases hlook : getKeyLocationForIdentifier db (sTrim q.key) (sTrim q.location) with
      | none =>
        simp only [Bool.or_eq_true, decide_eq_true_eq, not_or] at h1
        exact ⟨h1.1, h1.2, rfl⟩
      | some row =>
        simp only [hlook] at h
        exact absurd h (by simp)

theorem portal_badInput_vs_masked_witness :
    configHandler c2db ⟨"  ", "reception"⟩ = ⟨400, "key and location are required", none, []⟩
    ∧ checkinHandler c2db 0 (some ⟨"K", "reception", 0, "in", ""⟩)
        = ⟨400, "missing required fields", none⟩ := by
  have h := portal_badInput_vs_masked c2db 0
  exact ⟨h.1 ⟨"  ", "reception"⟩ (Or.inl (by decide)),
    h.2.2.1 ⟨"K", "reception", 0, "in", ""⟩ (Or.inr (Or.inr rfl))⟩

end Signin
